import Mathlib

/-! Route table and API client of book_library.

Verification development for the single-page frontend in `src/index.js` (the
route table handed to the router) and `src/library.js` (three pass-through
HTTP operations on one configured client).

The repository's own code is the table and the three operations.  What the
table means when a location is navigated is decided by the router library the
table is handed to (`createRouter`), and what a `post` does by the HTTP
library (`axios.create`).  Neither library is part of the repository:

* the router's path handling is embedded below, for the pattern forms that
  occur in the table (literal segments and `:name` parameters), with the
  library's default options: literal segments compare ignoring ASCII case, one
  trailing `/` is tolerated, a parameter takes one non-empty segment, the
  query and hash are cut off the location before matching and parameter values
  are percent-decoded afterwards;
* what becomes of a request handed to the HTTP library is a parameter of the
  operations (`Network`); the library's serialisation of the request data,
  which decides whether anything is transmitted and with what body, is
  embedded for plain values (`transformRequest`, `transmitted`).
-/

namespace BookLibrary

/-! ## Route table (`src/index.js`) -/

/-- Component reference of a route: the imported view itself (`component: Home`)
or a thunk importing the view on demand (`component: () => import(...)`). -/
inductive Component where
  | eager (view : String)
  | deferred (module : String)
deriving DecidableEq, Repr

/-- Whether the component reference is the view itself rather than a thunk. -/
def Component.isEager : Component → Bool
  | .eager _ => true
  | .deferred _ => false

/-- One record of the `routes` array.  The field `props` is `true` where the
record has `props: true` and `false` where the key is absent. -/
structure Route where
  path : String
  name : String
  component : Component
  props : Bool
deriving DecidableEq, Repr

/-- The `routes` array of `src/index.js`, lines 5-38, in source order. -/
def routes : List Route :=
  [ { path := "/Home", name := "Home",
      component := .eager "../views/Home.vue", props := false },
    { path := "/QueryUser", name := "QueryUser",
      component := .deferred "../views/QueryUser.vue", props := false },
    { path := "/BookReturn", name := "BookReturn",
      component := .deferred "../views/BookReturn.vue", props := false },
    { path := "/book/:id", name := "BookDetail",
      component := .deferred "../views/BookDetail.vue", props := true },
    { path := "/create_book", name := "creat_book",
      component := .deferred "../views/photo.vue", props := true },
    { path := "/BorrowBook", name := "BorrowBook",
      component := .deferred "../views/BorrowBook.vue", props := false } ]

/-! ## Router: pattern tokens and path matching -/

/-- Split a character list at every `/`. -/
def splitSlash : List Char → List (List Char)
  | [] => [[]]
  | c :: cs =>
    if c = '/' then [] :: splitSlash cs
    else
      match splitSlash cs with
      | [] => [[c]]
      | seg :: segs => (c :: seg) :: segs

/-- A segment of a path pattern: literal text or a named parameter. -/
inductive Token where
  | static (value : List Char)
  | param (name : List Char)
deriving DecidableEq, Repr

/-- Characters allowed in a parameter name. -/
def isNameChar (c : Char) : Bool :=
  c.isAlphanum || c = '_'

/-- Characters with a special meaning in a path pattern. -/
def isPatternSpecial (c : Char) : Bool :=
  c = ':' || c = '(' || c = ')' || c = '*' || c = '+' || c = '?' || c = '\\'

/-- Token of one pattern segment: `:name` is a parameter, text without special
characters is a literal; other pattern forms are not covered (`none`). -/
def tokenizeSegment : List Char → Option Token
  | [] => none
  | c :: cs =>
    if c = ':' then
      if cs ≠ [] ∧ cs.all isNameChar then some (.param cs) else none
    else if (c :: cs).any isPatternSpecial then none
    else some (.static (c :: cs))

/-- Tokens of a list of pattern segments. -/
def tokenizeSegments : List (List Char) → Option (List Token)
  | [] => some []
  | seg :: segs =>
    match tokenizeSegment seg, tokenizeSegments segs with
    | some t, some ts => some (t :: ts)
    | _, _ => none

/-- Tokens of a path pattern, which starts with `/`. -/
def tokenizePath (pattern : String) : Option (List Token) :=
  match pattern.toList with
  | [] => none
  | c :: rest => if c = '/' then tokenizeSegments (splitSlash rest) else none

/-- Number of named parameter segments of a path pattern. -/
def paramCount (pattern : String) : Nat :=
  match tokenizePath pattern with
  | some toks => (toks.filter fun t => match t with
      | .param _ => true
      | .static _ => false).length
  | none => 0

/-- ASCII lower-casing of a segment, for case-insensitive comparison. -/
def lower (s : List Char) : List Char :=
  s.map Char.toLower

/-- Raw parameter bindings, in pattern order. -/
abbrev RawParams := List (List Char × List Char)

/-- Match the segments of a path against the tokens of a pattern.  A literal
matches a segment equal to it up to ASCII case, a parameter matches any
non-empty segment, and after the last token one empty segment (a trailing `/`)
is tolerated. -/
def matchTokens : List Token → List (List Char) → Option RawParams
  | [], [] => some []
  | [], [seg] => if seg = [] then some [] else none
  | [], _ :: _ :: _ => none
  | _ :: _, [] => none
  | .static v :: ts, seg :: segs =>
    if lower v = lower seg then matchTokens ts segs else none
  | .param n :: ts, seg :: segs =>
    if seg = [] then none
    else
      match matchTokens ts segs with
      | some ps => some ((n, seg) :: ps)
      | none => none

/-- Match a path (already without query and hash) against a pattern. -/
def matchPath (pattern : String) (path : List Char) : Option RawParams :=
  match tokenizePath pattern, path with
  | some toks, c :: rest => if c = '/' then matchTokens toks (splitSlash rest) else none
  | _, _ => none

/-- Path part of an absolute location: everything before the first `?` or `#`. -/
def parseURLPath (location : List Char) : List Char :=
  location.takeWhile fun c => !(c = '?' || c = '#')

/-! ## Router: percent-decoding of parameter values -/

/-- Value of a hexadecimal digit. -/
def hexVal (c : Char) : Option Nat :=
  if '0' ≤ c ∧ c ≤ '9' then some (c.toNat - '0'.toNat)
  else if 'a' ≤ c ∧ c ≤ 'f' then some (c.toNat - 'a'.toNat + 10)
  else if 'A' ≤ c ∧ c ≤ 'F' then some (c.toNat - 'A'.toNat + 10)
  else none

/-- Read one escape `%XX` from the front of the text. -/
def readOctet : List Char → Option (Nat × List Char)
  | p :: a :: b :: rest =>
    if p = '%' then
      match hexVal a, hexVal b with
      | some x, some y => some (16 * x + y, rest)
      | _, _ => none
    else none
  | _ => none

/-- Read `n` continuation escapes (`%XX` with `XX` in `80..BF`) and fold their
low six bits into the accumulator. -/
def readContinuation : Nat → Nat → List Char → Option (Nat × List Char)
  | 0, acc, s => some (acc, s)
  | n + 1, acc, s =>
    match readOctet s with
    | some (b, rest) =>
      if 128 ≤ b ∧ b < 192 then readContinuation n (acc * 64 + (b - 128)) rest else none
    | none => none

/-- Decode the escape sequence at the front of the text (which starts with `%`)
as one UTF-8 encoded code point. -/
def readCodePoint (s : List Char) : Option (Char × List Char) :=
  match readOctet s with
  | none => none
  | some (b, rest) =>
    if b < 128 then some (Char.ofNat b, rest)
    else if 194 ≤ b ∧ b < 224 then
      match readContinuation 1 (b - 192) rest with
      | some (cp, rest2) => some (Char.ofNat cp, rest2)
      | none => none
    else if 224 ≤ b ∧ b < 240 then
      match readContinuation 2 (b - 224) rest with
      | some (cp, rest2) =>
        if 2048 ≤ cp ∧ ¬ (55296 ≤ cp ∧ cp < 57344) then some (Char.ofNat cp, rest2) else none
      | none => none
    else if 240 ≤ b ∧ b < 245 then
      match readContinuation 3 (b - 240) rest with
      | some (cp, rest2) =>
        if 65536 ≤ cp ∧ cp < 1114112 then some (Char.ofNat cp, rest2) else none
      | none => none
    else none

/-- Decoder `decodeURIComponent`, with `none` for the thrown `URIError`.  The
first argument bounds the number of steps; the length of the text suffices. -/
def decodeURIComponentAux : Nat → List Char → Option (List Char)
  | _, [] => some []
  | 0, _ :: _ => none
  | fuel + 1, c :: cs =>
    if c = '%' then
      match readCodePoint (c :: cs) with
      | some (ch, rest) =>
        match decodeURIComponentAux fuel rest with
        | some out => some (ch :: out)
        | none => none
      | none => none
    else
      match decodeURIComponentAux fuel cs with
      | some out => some (c :: out)
      | none => none

/-- Decoder `decodeURIComponent` on a whole text. -/
def decodeURIComponent (text : List Char) : Option (List Char) :=
  decodeURIComponentAux text.length text

/-- The router's `decode`: the decoded text, or the text itself when it does
not decode. -/
def decode (text : List Char) : List Char :=
  match decodeURIComponent text with
  | some out => out
  | none => text

/-! ## Router: resolution of a location -/

/-- Parameters of a resolved location: name and decoded value. -/
abbrev Params := List (String × String)

/-- Decode every raw parameter value. -/
def decodeParams (ps : RawParams) : Params :=
  ps.map fun p => (String.mk p.1, String.mk (decode p.2))

/-- A resolved location: the matched route record and its parameters. -/
structure RouteLocation where
  route : Route
  params : Params
deriving DecidableEq, Repr

/-- Whether a route record matches a path. -/
def Route.matchesPath (r : Route) (path : List Char) : Bool :=
  (matchPath r.path path).isSome

/-- The records of a table that match the path of a location. -/
def matchingRoutes (table : List Route) (location : String) : List Route :=
  table.filter fun r => r.matchesPath (parseURLPath location.toList)

/-- The resolved location a route record yields for a path, when it matches. -/
def Route.locate (r : Route) (path : List Char) : Option RouteLocation :=
  match matchPath r.path path with
  | some ps => some { route := r, params := decodeParams ps }
  | none => none

/-- Resolve an absolute location against a table: the first record whose
pattern matches the location's path, with the decoded parameters.  (The library
ranks the records by their patterns before trying them; for the table of this
application the order is shown to be immaterial.) -/
def resolveIn (table : List Route) (location : String) : Option RouteLocation :=
  table.findSome? fun r => r.locate (parseURLPath location.toList)

/-- Resolve an absolute location against the route table of the application. -/
def resolve (location : String) : Option RouteLocation :=
  resolveIn routes location

/-- Props handed to the component of a resolved location: with `props: true`
the route parameters, otherwise none. -/
def componentProps (loc : RouteLocation) : Params :=
  if loc.route.props then loc.params else []

/-! ## API client (`src/library.js`) -/

/-- A number of the host language: a finite value (the sign of zero is not
tracked) or one of the three that are not finite. -/
inductive Number where
  | finite (value : Rat)
  | nan
  | infinity
  | negInfinity
deriving Repr

/-- Whether a number is finite. -/
def Number.isFinite : Number → Bool
  | .finite _ => true
  | _ => false

/-- Values of the host language, as callers pass them to the operations and as
the server returns them: the primitives, arrays, plain objects (their own keys
in enumeration order) and `circular`, an object that contains itself.  Host
objects (dates, form data, buffers) and functions are not covered. -/
inductive Value where
  | undefined
  | null
  | bool (b : Bool)
  | num (x : Number)
  | bigint (n : Int)
  | str (s : String)
  | arr (items : List Value)
  | obj (fields : List (String × Value))
  | circular
deriving Repr

/-- Configuration object given to `axios.create`. -/
structure ClientConfig where
  baseURL : String
  timeout : Nat
deriving DecidableEq, Repr

/-- Client instance: it holds the defaults every request is built from. -/
structure AxiosInstance where
  defaults : ClientConfig
deriving DecidableEq, Repr

/-- Constructor `axios.create`. -/
def create (config : ClientConfig) : AxiosInstance :=
  { defaults := config }

/-- The module-level `api` of `src/library.js`, lines 3-6. -/
def api : AxiosInstance :=
  create { baseURL := "http://localhost:8000", timeout := 5000 }

/-- One request as `post` hands it to the HTTP library: the instance defaults
merged with the url and the data.  The field `data` is the value given to
`post`; the library serialises it afterwards (`transformRequest`), and only
then is anything transmitted (`WireRequest`). -/
structure Request where
  method : String
  baseURL : String
  timeout : Nat
  url : String
  data : Value
deriving Repr

/-- Response of the server. -/
structure Response where
  status : Nat
  data : Value
deriving Repr

/-- Failure of a request: a transport error (timeout, refused connection, ...),
a response with an error status, or data the library cannot serialise (the
error is thrown before anything is transmitted). -/
inductive Failure where
  | transport (code : String)
  | badStatus (response : Response)
  | serialisation
deriving Repr

/-- Settled result of a request: the response or the failure. -/
abbrev Outcome := Except Failure Response

/-- What becomes of a request handed to the HTTP library, all of it external to
the repository (the library's processing, the transport, the server): the
outcome of the request handed over as number `k`. -/
abbrev Network := Nat → Request → Outcome

/-- State of the client module: the instance and the requests handed to the
library so far, oldest first. -/
structure ClientState where
  api : AxiosInstance
  sent : List Request
deriving Repr

/-- State after the module is loaded: `api` is constructed, nothing is sent. -/
def ClientState.init : ClientState :=
  { api := BookLibrary.api, sent := [] }

/-- Method `post(url, data)` of the instance: one POST request built from the
instance defaults, whose outcome is the result of the call. -/
def post (url : String) (data : Value) (net : Network) (st : ClientState) :
    Outcome × ClientState :=
  let req : Request :=
    { method := "POST", baseURL := st.api.defaults.baseURL,
      timeout := st.api.defaults.timeout, url := url, data := data }
  (net st.sent.length req, { st with sent := st.sent ++ [req] })

/-- Operation `getUserInfo(phone)`, `src/library.js` lines 10-12. -/
def getUserInfo (phone : Value) (net : Network) (st : ClientState) : Outcome × ClientState :=
  post "/borrower_loans" (.obj [("phone", phone)]) net st

/-- Operation `searchBooks(params)`, `src/library.js` lines 15-17. -/
def searchBooks (params : Value) (net : Network) (st : ClientState) : Outcome × ClientState :=
  post "/search_books" params net st

/-- Operation `borrowBook(data)`, `src/library.js` lines 20-22. -/
def borrowBook (data : Value) (net : Network) (st : ClientState) : Outcome × ClientState :=
  post "/borrow" data net st

/-- A call of one of the three exported operations. -/
inductive Call where
  | getUserInfo (phone : Value)
  | searchBooks (params : Value)
  | borrowBook (data : Value)

/-- Perform one call. -/
def Call.run : Call → Network → ClientState → Outcome × ClientState
  | .getUserInfo phone => BookLibrary.getUserInfo phone
  | .searchBooks params => BookLibrary.searchBooks params
  | .borrowBook data => BookLibrary.borrowBook data

/-- State after a sequence of calls, performed one after the other. -/
def runCalls (net : Network) : List Call → ClientState → ClientState
  | [], st => st
  | c :: cs, st => runCalls net cs (c.run net st).2

/-! ## HTTP library: serialisation of the request data -/

/-- Whether a value is an object of the host language (array, plain object or
cyclic object) rather than a primitive. -/
def Value.isObject : Value → Bool
  | .arr _ => true
  | .obj _ => true
  | .circular => true
  | _ => false

mutual
/-- Whether a value is a JSON value: null, a boolean, a finite number, a
string, or an array or plain object built from JSON values. -/
def Value.isJson : Value → Bool
  | .null => true
  | .bool _ => true
  | .num x => x.isFinite
  | .str _ => true
  | .arr items => isJsonItems items
  | .obj fields => isJsonFields fields
  | _ => false
/-- Whether all items of an array are JSON values. -/
def isJsonItems : List Value → Bool
  | [] => true
  | x :: xs => x.isJson && isJsonItems xs
/-- Whether all field values of an object are JSON values. -/
def isJsonFields : List (String × Value) → Bool
  | [] => true
  | (_, x) :: fs => x.isJson && isJsonFields fs
end

mutual
/-- The JSON document `JSON.stringify` writes for a value, as the value that
text parses to: `none` when it throws (a BigInt or a cyclic object anywhere
inside), `some none` when the value has no JSON form (`undefined`).  A number
that is not finite is written as `null`. -/
def serializeProperty : Value → Option (Option Value)
  | .undefined => some none
  | .null => some (some .null)
  | .bool b => some (some (.bool b))
  | .num x => if x.isFinite then some (some (.num x)) else some (some .null)
  | .bigint _ => none
  | .str s => some (some (.str s))
  | .circular => none
  | .arr items =>
    match serializeItems items with
    | some docs => some (some (.arr docs))
    | none => none
  | .obj fields =>
    match serializeFields fields with
    | some docs => some (some (.obj docs))
    | none => none
/-- Items of an array: an item without JSON form is written as `null`. -/
def serializeItems : List Value → Option (List Value)
  | [] => some []
  | x :: xs =>
    match serializeProperty x, serializeItems xs with
    | some (some doc), some docs => some (doc :: docs)
    | some none, some docs => some (.null :: docs)
    | _, _ => none
/-- Fields of an object: a field whose value has no JSON form is left out. -/
def serializeFields : List (String × Value) → Option (List (String × Value))
  | [] => some []
  | (key, x) :: fs =>
    match serializeProperty x, serializeFields fs with
    | some (some doc), some docs => some ((key, doc) :: docs)
    | some none, some docs => some docs
    | _, _ => none
end

/-- Body of a transmitted request: the JSON text of a document, or data that is
not an object and is passed on as it is. -/
inductive Body where
  | json (doc : Value)
  | raw (data : Value)
deriving Repr

/-- The library's default `transformRequest` on the values covered: an object
is written as JSON, which may throw (`none`); other data is passed on. -/
def transformRequest (data : Value) : Option Body :=
  if data.isObject then
    match serializeProperty data with
    | some (some doc) => some (.json doc)
    | _ => none
  else some (.raw data)

/-- One request as transmitted. -/
structure WireRequest where
  method : String
  baseURL : String
  timeout : Nat
  url : String
  body : Body
deriving Repr

/-- The transmitted form of a request handed to the library, if its data
serialises. -/
def wireRequest (req : Request) : Option WireRequest :=
  match transformRequest req.data with
  | some body =>
    some { method := req.method, baseURL := req.baseURL, timeout := req.timeout,
           url := req.url, body := body }
  | none => none

/-- The requests actually transmitted among those handed to the library. -/
def transmitted (reqs : List Request) : List WireRequest :=
  reqs.filterMap wireRequest

/-- Transport and server behind the library: the outcome of a transmitted
request. -/
abbrev Adapter := Nat → WireRequest → Outcome

/-- The library in front of a transport: a request whose data serialises is
transmitted and its outcome returned; otherwise the call fails at once. -/
def pipeline (adapter : Adapter) : Network :=
  fun k req =>
    match wireRequest req with
    | some w => adapter k w
    | none => .error .serialisation

/-- A server that answers every transmitted request with status 200. -/
def respondOk : Adapter :=
  fun _ _ => .ok { status := 200, data := .null }

/-! ## Auxiliary definitions for the statements -/

/-- The record of the table for `/book/:id` (the fourth one). -/
def bookDetail : Route :=
  { path := "/book/:id", name := "BookDetail",
    component := .deferred "../views/BookDetail.vue", props := true }

/-- Names of the records of the route table that match a location. -/
def matchingNames (location : String) : List String :=
  (matchingRoutes routes location).map fun r => r.name

/-- Name of the route a location resolves to, if any. -/
def resolvedName (location : String) : Option String :=
  (resolve location).map fun l => l.route.name

/-- Props handed to the component a location resolves to, if any. -/
def resolvedProps (location : String) : Option Params :=
  (resolve location).map componentProps

/-- Lower-cased first literal of a pattern, when the pattern starts with one. -/
def firstLiteral (pattern : String) : Option (List Char) :=
  match tokenizePath pattern with
  | some (.static v :: _) => some (lower v)
  | _ => none

/-- Lower-cased first segment of an absolute path. -/
def firstSegment : List Char → Option (List Char)
  | [] => none
  | c :: rest => if c = '/' then (splitSlash rest).head?.map lower else none

/-! ## Lemmas on the router -/

theorem splitSlash_of_no_slash (s : List Char) (h : ∀ c ∈ s, c ≠ '/') :
    splitSlash s = [s] := by
  induction s with
  | nil => rfl
  | cons c cs ih =>
    have hc : c ≠ '/' := h c (List.mem_cons_self _ _)
    have hcs : ∀ d ∈ cs, d ≠ '/' := fun d hd => h d (List.mem_cons_of_mem _ hd)
    simp [splitSlash, hc, ih hcs]

theorem parseURLPath_of_plain (s : List Char) (h : ∀ c ∈ s, c ≠ '?' ∧ c ≠ '#') :
    parseURLPath s = s := by
  unfold parseURLPath
  rw [List.takeWhile_eq_self_iff]
  intro c hc
  simp [h c hc]

theorem decodeURIComponentAux_of_plain (s : List Char) (h : ∀ c ∈ s, c ≠ '%') :
    ∀ fuel, s.length ≤ fuel → decodeURIComponentAux fuel s = some s := by
  induction s with
  | nil => intro fuel _; cases fuel <;> rfl
  | cons c cs ih =>
    intro fuel hf
    have hc : c ≠ '%' := h c (List.mem_cons_self _ _)
    have hcs : ∀ d ∈ cs, d ≠ '%' := fun d hd => h d (List.mem_cons_of_mem _ hd)
    cases fuel with
    | zero => simp at hf
    | succ n =>
      have hn : cs.length ≤ n := by simpa using hf
      simp [decodeURIComponentAux, hc, ih hcs n hn]

theorem decode_of_plain (s : List Char) (h : ∀ c ∈ s, c ≠ '%') : decode s = s := by
  simp [decode, decodeURIComponent, decodeURIComponentAux_of_plain s h s.length le_rfl]

theorem tokenizePath_book :
    tokenizePath "/book/:id" = some [.static "book".toList, .param "id".toList] := by
  decide

theorem matchPath_of_tokens (pattern : String) (toks : List Token) (rest : List Char)
    (ht : tokenizePath pattern = some toks) :
    matchPath pattern ('/' :: rest) = matchTokens toks (splitSlash rest) := by
  simp [matchPath, ht]

theorem matchTokens_static_ne (v seg : List Char) (ts : List Token) (segs : List (List Char))
    (h : lower v ≠ lower seg) : matchTokens (.static v :: ts) (seg :: segs) = none := by
  simp [matchTokens, h]

theorem book_segments (s : List Char) (h : ∀ c ∈ s, c ≠ '/') :
    splitSlash ('b' :: 'o' :: 'o' :: 'k' :: '/' :: s) = [['b', 'o', 'o', 'k'], s] := by
  simp [splitSlash, splitSlash_of_no_slash s h]

theorem parseURLPath_book (s : List Char) (h : ∀ c ∈ s, c ≠ '?' ∧ c ≠ '#') :
    parseURLPath ('/' :: 'b' :: 'o' :: 'o' :: 'k' :: '/' :: s)
      = '/' :: 'b' :: 'o' :: 'o' :: 'k' :: '/' :: s := by
  apply parseURLPath_of_plain
  intro c hc
  simp only [List.mem_cons] at hc
  rcases hc with rfl | rfl | rfl | rfl | rfl | rfl | hc
  · decide
  · decide
  · decide
  · decide
  · decide
  · decide
  · exact h c hc

theorem book_toList (id : String) :
    ("/book/" ++ id).toList = '/' :: 'b' :: 'o' :: 'o' :: 'k' :: '/' :: id.toList := by
  simp [String.toList]

theorem resolve_book (s : List Char) (hne : s ≠ [])
    (h : ∀ c ∈ s, c ≠ '/' ∧ c ≠ '?' ∧ c ≠ '#') :
    resolve (String.mk ('/' :: 'b' :: 'o' :: 'o' :: 'k' :: '/' :: s))
      = some { route := bookDetail, params := [("id", String.mk (decode s))] } := by
  have hseg := book_segments s (fun c hc => (h c hc).1)
  have hparse := parseURLPath_book s (fun c hc => (h c hc).2)
  have h1 : matchPath "/Home" ('/' :: 'b' :: 'o' :: 'o' :: 'k' :: '/' :: s) = none := by
    rw [matchPath_of_tokens _ [.static "Home".toList] _ (by decide), hseg]
    exact matchTokens_static_ne _ _ _ _ (by decide)
  have h2 : matchPath "/QueryUser" ('/' :: 'b' :: 'o' :: 'o' :: 'k' :: '/' :: s) = none := by
    rw [matchPath_of_tokens _ [.static "QueryUser".toList] _ (by decide), hseg]
    exact matchTokens_static_ne _ _ _ _ (by decide)
  have h3 : matchPath "/BookReturn" ('/' :: 'b' :: 'o' :: 'o' :: 'k' :: '/' :: s) = none := by
    rw [matchPath_of_tokens _ [.static "BookReturn".toList] _ (by decide), hseg]
    exact matchTokens_static_ne _ _ _ _ (by decide)
  have h4 : matchPath "/book/:id" ('/' :: 'b' :: 'o' :: 'o' :: 'k' :: '/' :: s)
      = some [("id".toList, s)] := by
    rw [matchPath_of_tokens _ [.static "book".toList, .param "id".toList] _ (by decide), hseg]
    simp [matchTokens, hne]
  simp only [resolve, resolveIn, routes, List.findSome?, Route.locate, String.toList, hparse, h1, h2,
    h3, h4]
  simp [decodeParams, bookDetail]


theorem firstSegment_of_match (pattern : String) (path k : List Char)
    (hk : firstLiteral pattern = some k) (hm : (matchPath pattern path).isSome) :
    firstSegment path = some k := by
  unfold firstLiteral at hk
  unfold matchPath at hm
  cases ht : tokenizePath pattern with
  | none => simp [ht] at hk
  | some toks =>
    rw [ht] at hk hm
    cases toks with
    | nil => simp at hk
    | cons t ts =>
      cases t with
      | param n => simp at hk
      | static v =>
        simp only [Option.some.injEq] at hk
        cases path with
        | nil => simp at hm
        | cons c rest =>
          simp only at hm
          by_cases hc : c = '/'
          · simp only [hc, if_true] at hm
            cases hs : splitSlash rest with
            | nil => rw [hs] at hm; simp [matchTokens] at hm
            | cons seg segs =>
              rw [hs] at hm
              by_cases hl : lower v = lower seg
              · simp [firstSegment, hc, hs, ← hl, hk]
              · simp [matchTokens, hl] at hm
          · simp [hc] at hm

theorem routes_firstLiteral_injective :
    ∀ r1 ∈ routes, ∀ r2 ∈ routes,
      (firstLiteral r1.path).isSome ∧ (firstLiteral r1.path = firstLiteral r2.path → r1 = r2) := by
  decide

theorem routes_match_unique (path : List Char) (r1 r2 : Route) (h1 : r1 ∈ routes)
    (h2 : r2 ∈ routes) (m1 : r1.matchesPath path = true) (m2 : r2.matchesPath path = true) :
    r1 = r2 := by
  obtain ⟨s1, inj⟩ := routes_firstLiteral_injective r1 h1 r2 h2
  obtain ⟨s2, -⟩ := routes_firstLiteral_injective r2 h2 r1 h1
  obtain ⟨k1, hk1⟩ := Option.isSome_iff_exists.1 s1
  obtain ⟨k2, hk2⟩ := Option.isSome_iff_exists.1 s2
  have e1 := firstSegment_of_match r1.path path k1 hk1 m1
  have e2 := firstSegment_of_match r2.path path k2 hk2 m2
  apply inj
  rw [hk1, hk2, ← e1, ← e2]

theorem length_le_one_of_all_eq {α : Type} (l : List α) (hn : l.Nodup)
    (h : ∀ a ∈ l, ∀ b ∈ l, a = b) : l.length ≤ 1 := by
  match l, hn, h with
  | [], _, _ => simp
  | [_], _, _ => simp
  | a :: b :: t, hn, h =>
    have hab : a = b := h a (by simp) b (by simp)
    subst hab
    simp at hn

theorem findSome_eq_some_iff_of_unique {α β : Type} (f : α → Option β) (l : List α)
    (hu : ∀ a ∈ l, ∀ b ∈ l, (f a).isSome → (f b).isSome → a = b) (x : β) :
    l.findSome? f = some x ↔ ∃ a ∈ l, f a = some x := by
  induction l with
  | nil => simp
  | cons c t ih =>
    have hut : ∀ a ∈ t, ∀ b ∈ t, (f a).isSome → (f b).isSome → a = b :=
      fun a ha b hb => hu a (List.mem_cons_of_mem _ ha) b (List.mem_cons_of_mem _ hb)
    cases hc : f c with
    | none =>
      simp only [List.findSome?, hc, ih hut, List.mem_cons]
      constructor
      · rintro ⟨a, ha, hx⟩
        exact ⟨a, Or.inr ha, hx⟩
      · rintro ⟨a, ha | ha, hx⟩
        · rw [ha, hc] at hx; cases hx
        · exact ⟨a, ha, hx⟩
    | some y =>
      simp only [List.findSome?, hc, Option.some.injEq]
      constructor
      · intro hyx
        exact ⟨c, List.mem_cons_self _ _, by rw [hc, hyx]⟩
      · rintro ⟨a, ha, hx⟩
        have hac : a = c := hu a ha c (List.mem_cons_self _ _) (by simp [hx]) (by simp [hc])
        rw [hac, hc] at hx
        exact Option.some.inj hx

theorem locate_isSome (r : Route) (path : List Char) :
    (r.locate path).isSome = r.matchesPath path := by
  unfold Route.locate Route.matchesPath
  cases matchPath r.path path <;> rfl

theorem resolveIn_perm (table : List Route) (hp : table.Perm routes) (location : String) :
    resolveIn table location = resolveIn routes location := by
  generalize hpath : parseURLPath location.toList = path
  have key : ∀ (t : List Route), (∀ r, r ∈ t → r ∈ routes) →
      ∀ a ∈ t, ∀ b ∈ t, (a.locate path).isSome → (b.locate path).isSome → a = b := by
    intro t ht a ha b hb ma mb
    rw [locate_isSome] at ma mb
    exact routes_match_unique path a b (ht a ha) (ht b hb) ma mb
  apply Option.ext
  intro x
  simp only [resolveIn, hpath, Option.mem_def]
  rw [findSome_eq_some_iff_of_unique _ table (key table fun r hr => hp.subset hr),
    findSome_eq_some_iff_of_unique _ routes (key routes fun r hr => hr)]
  constructor
  · rintro ⟨a, ha, hx⟩
    exact ⟨a, hp.subset ha, hx⟩
  · rintro ⟨a, ha, hx⟩
    exact ⟨a, hp.symm.subset ha, hx⟩

theorem routes_nodup : routes.Nodup := by decide

theorem resolveIn_route_eq_head (t : List Route) (location : String) :
    (resolveIn t location).map (fun l => l.route) = (matchingRoutes t location).head? := by
  unfold resolveIn matchingRoutes
  generalize parseURLPath location.toList = path
  induction t with
  | nil => rfl
  | cons r t ih =>
    have hm : r.matchesPath path = (r.locate path).isSome := (locate_isSome r path).symm
    cases h : r.locate path with
    | none =>
      rw [h] at hm
      rw [List.findSome?, h, List.filter, hm]
      exact ih
    | some l =>
      rw [h] at hm
      rw [List.findSome?, h, List.filter, hm]
      unfold Route.locate at h
      cases hp : matchPath r.path path with
      | none => rw [hp] at h; cases h
      | some ps =>
        rw [hp] at h
        cases h
        rfl

theorem book_location (id : String) :
    "/book/" ++ id = String.mk ('/' :: 'b' :: 'o' :: 'o' :: 'k' :: '/' :: id.toList) :=
  String.ext (book_toList id)

theorem toList_ne_nil (s : String) (h : s ≠ "") : s.toList ≠ [] := by
  intro hs
  exact h (String.ext hs)

theorem matchingRoutes_book (s : List Char) (hne : s ≠ [])
    (h : ∀ c ∈ s, c ≠ '/' ∧ c ≠ '?' ∧ c ≠ '#') :
    matchingRoutes routes (String.mk ('/' :: 'b' :: 'o' :: 'o' :: 'k' :: '/' :: s))
      = [bookDetail] := by
  have hhead := resolveIn_route_eq_head routes (String.mk ('/' :: 'b' :: 'o' :: 'o' :: 'k' :: '/' :: s))
  have hres := resolve_book s hne h
  unfold resolve at hres
  rw [hres] at hhead
  have hlen : (matchingRoutes routes
      (String.mk ('/' :: 'b' :: 'o' :: 'o' :: 'k' :: '/' :: s))).length ≤ 1 := by
    apply length_le_one_of_all_eq
    · exact routes_nodup.sublist (List.filter_sublist _)
    · intro a ha b hb
      simp only [matchingRoutes, List.mem_filter] at ha hb
      exact routes_match_unique _ a b ha.1 hb.1 ha.2 hb.2
  match hm : matchingRoutes routes (String.mk ('/' :: 'b' :: 'o' :: 'o' :: 'k' :: '/' :: s)) with
  | [] => rw [hm] at hhead; simp at hhead
  | [r] => rw [hm] at hhead; simp at hhead; rw [hhead]
  | _ :: _ :: _ => rw [hm] at hlen; simp at hlen

theorem ne_of_not_mem (x : Char) (l : List Char) (h : x ∉ l) : ∀ c ∈ l, c ≠ x :=
  fun _ hc e => h (e ▸ hc)

theorem plain_of_not_mem (l : List Char) (h1 : '/' ∉ l) (h2 : '?' ∉ l) (h3 : '#' ∉ l) :
    ∀ c ∈ l, c ≠ '/' ∧ c ≠ '?' ∧ c ≠ '#' :=
  fun c hc => ⟨ne_of_not_mem _ l h1 c hc, ne_of_not_mem _ l h2 c hc, ne_of_not_mem _ l h3 c hc⟩

/-! ## Route table: the claims -/

/-- C1. Each of the six configured paths resolves to the route with the
tabulated name and is matched by no other record of the table; the book path
is taken with any concrete id (a non-empty segment without `/`, `?`, `#`). -/
theorem configured_paths_resolve (id : String) (hne : id ≠ "")
    (h1 : '/' ∉ id.toList) (h2 : '?' ∉ id.toList) (h3 : '#' ∉ id.toList) :
    (resolvedName "/Home" = some "Home" ∧ matchingNames "/Home" = ["Home"])
    ∧ (resolvedName "/QueryUser" = some "QueryUser" ∧ matchingNames "/QueryUser" = ["QueryUser"])
    ∧ (resolvedName "/BookReturn" = some "BookReturn"
        ∧ matchingNames "/BookReturn" = ["BookReturn"])
    ∧ (resolvedName ("/book/" ++ id) = some "BookDetail"
        ∧ matchingNames ("/book/" ++ id) = ["BookDetail"])
    ∧ (resolvedName "/create_book" = some "creat_book"
        ∧ matchingNames "/create_book" = ["creat_book"])
    ∧ (resolvedName "/BorrowBook" = some "BorrowBook"
        ∧ matchingNames "/BorrowBook" = ["BorrowBook"]) := by
  have hid := plain_of_not_mem id.toList h1 h2 h3
  refine ⟨by decide, by decide, by decide, ⟨?_, ?_⟩, by decide, by decide⟩
  · rw [resolvedName, book_location, resolve_book id.toList (toList_ne_nil id hne) hid]
    rfl
  · rw [matchingNames, book_location, matchingRoutes_book id.toList (toList_ne_nil id hne) hid]
    rfl

/-- C1, at the id `42`: the book path resolves to BookDetail and no other
record matches it. -/
theorem configured_paths_resolve_witness :
    "42" ≠ "" ∧ '/' ∉ "42".toList ∧ '?' ∉ "42".toList ∧ '#' ∉ "42".toList
    ∧ resolvedName ("/book/" ++ "42") = some "BookDetail"
    ∧ matchingNames ("/book/" ++ "42") = ["BookDetail"] :=
  ⟨by decide, by decide, by decide, by decide,
    (configured_paths_resolve "42" (by decide) (by decide) (by decide) (by decide)).2.2.2.1⟩

/-- C2. For every navigated location at most one record of the table matches,
resolution yields that record or none, and every reordering of the table
resolves the location to the same result. -/
theorem at_most_one_route_matches (location : String) :
    (matchingRoutes routes location).length ≤ 1
    ∧ (resolve location).map (fun l => l.route) = (matchingRoutes routes location).head?
    ∧ ∀ table : List Route, table.Perm routes → resolveIn table location = resolve location := by
  refine ⟨?_, resolveIn_route_eq_head routes location,
    fun table hp => resolveIn_perm table hp location⟩
  apply length_le_one_of_all_eq
  · exact routes_nodup.sublist (List.filter_sublist _)
  · intro a ha b hb
    simp only [matchingRoutes, List.mem_filter] at ha hb
    exact routes_match_unique _ a b ha.1 hb.1 ha.2 hb.2

/-- C3, refuted as stated: the id segments `a%20b`, `42?x=1` and `42#top` are
non-empty and have no `/`, yet the id handed to BookDetail is `a b`, `42` and
`42`: percent-escapes are decoded and the path ends at the first `?` or `#`. -/
theorem book_id_changed_counterexample :
    ("a%20b" ≠ "" ∧ '/' ∉ "a%20b".toList
      ∧ resolvedName ("/book/" ++ "a%20b") = some "BookDetail"
      ∧ resolvedProps ("/book/" ++ "a%20b") = some [("id", "a b")]
      ∧ resolvedProps ("/book/" ++ "a%20b") ≠ some [("id", "a%20b")])
    ∧ ("42?x=1" ≠ "" ∧ '/' ∉ "42?x=1".toList
      ∧ resolvedProps ("/book/" ++ "42?x=1") = some [("id", "42")]
      ∧ resolvedProps ("/book/" ++ "42?x=1") ≠ some [("id", "42?x=1")])
    ∧ ("42#top" ≠ "" ∧ '/' ∉ "42#top".toList
      ∧ resolvedProps ("/book/" ++ "42#top") = some [("id", "42")]
      ∧ resolvedProps ("/book/" ++ "42#top") ≠ some [("id", "42#top")]) := by
  decide

/-- C3, amended. For every non-empty id segment `s` with none of `/`, `?`, `#`,
`%`, the location `/book/` followed by `s` resolves to BookDetail and the props
of its component are exactly `id = s`. -/
theorem book_id_forwarded (s : String) (hne : s ≠ "")
    (h1 : '/' ∉ s.toList) (h2 : '?' ∉ s.toList) (h3 : '#' ∉ s.toList) (h4 : '%' ∉ s.toList) :
    resolvedName ("/book/" ++ s) = some "BookDetail"
    ∧ resolvedProps ("/book/" ++ s) = some [("id", s)] := by
  have hdec : decode s.toList = s.toList := decode_of_plain _ (ne_of_not_mem _ _ h4)
  have hres := resolve_book s.toList (toList_ne_nil s hne) (plain_of_not_mem _ h1 h2 h3)
  rw [hdec] at hres
  constructor
  · rw [resolvedName, book_location, hres]
    rfl
  · rw [resolvedProps, book_location, hres]
    rfl

/-- C3, amended, at the id `42`: the props of BookDetail are `id = "42"`. -/
theorem book_id_forwarded_witness :
    "42" ≠ "" ∧ '/' ∉ "42".toList ∧ '?' ∉ "42".toList ∧ '#' ∉ "42".toList
    ∧ '%' ∉ "42".toList
    ∧ resolvedName ("/book/" ++ "42") = some "BookDetail"
    ∧ resolvedProps ("/book/" ++ "42") = some [("id", "42")] :=
  ⟨by decide, by decide, by decide, by decide, by decide,
    book_id_forwarded "42" (by decide) (by decide) (by decide) (by decide) (by decide)⟩

/-- C8. The names of the records of the route table are pairwise distinct. -/
theorem route_names_unique : (routes.map fun r => r.name).Nodup := by
  decide

/-- C9. The table has exactly the six tabulated records in the tabulated order;
only Home holds its component eagerly, the other five hold a deferred one; only
BookDetail and creat_book have the props flag; and no path has more than one
named parameter, `/book/:id` being the only one with any. -/
theorem route_table_shape :
    routes.length = 6
    ∧ routes.map (fun r => (r.path, r.name))
        = [("/Home", "Home"), ("/QueryUser", "QueryUser"), ("/BookReturn", "BookReturn"),
           ("/book/:id", "BookDetail"), ("/create_book", "creat_book"),
           ("/BorrowBook", "BorrowBook")]
    ∧ routes.map (fun r => r.component.isEager) = [true, false, false, false, false, false]
    ∧ (routes.filter fun r => r.component.isEager).map (fun r => r.name) = ["Home"]
    ∧ (routes.filter fun r => !r.component.isEager).length = 5
    ∧ (routes.filter fun r => r.props).map (fun r => r.name) = ["BookDetail", "creat_book"]
    ∧ routes.map (fun r => paramCount r.path) = [0, 0, 0, 1, 0, 0]
    ∧ (∀ r ∈ routes, paramCount r.path ≤ 1) := by
  decide

/-- C10, refuted as stated: with the id missing (`/book/` and `/book`) no record
of the table matches, so the navigation reaches no view; and a parameter with a
percent-escape (`%34%32`) reaches BookDetail decoded (`42`), not as written. -/
theorem missing_id_counterexample :
    resolve "/book/" = none ∧ matchingRoutes routes "/book/" = []
    ∧ resolve "/book" = none ∧ matchingRoutes routes "/book" = []
    ∧ resolvedProps "/book/%34%32" = some [("id", "42")] := by
  decide

/-- C10, amended. The table puts no condition on the content of the id: every
location `/book/` followed by a non-empty segment without `/`, `?`, `#` is
accepted, whatever its characters, and BookDetail gets the segment
percent-decoded (the segment itself when it has no `%`); a location with the
id missing, `/book/` or `/book`, matches no record. -/
theorem book_id_not_validated (s : String) (hne : s ≠ "")
    (h1 : '/' ∉ s.toList) (h2 : '?' ∉ s.toList) (h3 : '#' ∉ s.toList) :
    resolve ("/book/" ++ s)
        = some { route := bookDetail, params := [("id", String.mk (decode s.toList))] }
    ∧ resolvedProps ("/book/" ++ s) = some [("id", String.mk (decode s.toList))]
    ∧ ('%' ∉ s.toList → resolvedProps ("/book/" ++ s) = some [("id", s)])
    ∧ resolve "/book/" = none ∧ resolve "/book" = none := by
  have hres := resolve_book s.toList (toList_ne_nil s hne) (plain_of_not_mem _ h1 h2 h3)
  refine ⟨?_, ?_, ?_, by decide, by decide⟩
  · rw [book_location, hres]
  · rw [resolvedProps, book_location, hres]
    rfl
  · intro hp
    rw [resolvedProps, book_location, hres, decode_of_plain _ (ne_of_not_mem _ _ hp)]
    rfl

/-- C10, amended, at the malformed id `not-a-number!`: it is accepted and
forwarded unchanged. -/
theorem book_id_not_validated_witness :
    "not-a-number!" ≠ "" ∧ '/' ∉ "not-a-number!".toList ∧ '?' ∉ "not-a-number!".toList
    ∧ '#' ∉ "not-a-number!".toList
    ∧ resolvedProps ("/book/" ++ "not-a-number!") = some [("id", "not-a-number!")] :=
  ⟨by decide, by decide, by decide, by decide,
    (book_id_not_validated "not-a-number!" (by decide) (by decide) (by decide)
      (by decide)).2.2.1 (by decide)⟩

/-! ## API client: the claims -/

theorem runCalls_invariant (net : Network) (calls : List Call) :
    ∀ st : ClientState,
      (runCalls net calls st).api = st.api
      ∧ ∃ issued : List Request,
          (runCalls net calls st).sent = st.sent ++ issued
          ∧ issued.length = calls.length
          ∧ ∀ r ∈ issued, r.method = "POST" ∧ r.baseURL = st.api.defaults.baseURL
              ∧ r.timeout = st.api.defaults.timeout := by
  induction calls with
  | nil =>
    intro st
    exact ⟨rfl, [], by simp [runCalls], rfl, by simp⟩
  | cons c cs ih =>
    intro st
    have hstep : ∃ req : Request, (c.run net st).2 = { st with sent := st.sent ++ [req] }
        ∧ req.method = "POST" ∧ req.baseURL = st.api.defaults.baseURL
        ∧ req.timeout = st.api.defaults.timeout := by
      cases c <;> exact ⟨_, rfl, rfl, rfl, rfl⟩
    obtain ⟨req, hrun, hreq⟩ := hstep
    obtain ⟨hapi, issued, hsent, hlen, hall⟩ := ih (c.run net st).2
    rw [hrun] at hapi hsent hall
    refine ⟨?_, req :: issued, ?_, by simp [hlen], ?_⟩
    · rw [runCalls, hrun]
      exact hapi
    · rw [runCalls, hrun, hsent]
      simp
    · intro r hr
      rcases List.mem_cons.1 hr with h | h
      · rw [h]
        exact hreq
      · exact hall r h

mutual
theorem serializeProperty_of_isJson :
    ∀ v : Value, v.isJson = true → serializeProperty v = some (some v)
  | .undefined, h => by simp [Value.isJson] at h
  | .null, _ => by simp [serializeProperty]
  | .bool _, _ => by simp [serializeProperty]
  | .num _, h => by
    simp only [Value.isJson] at h
    simp [serializeProperty, h]
  | .bigint _, h => by simp [Value.isJson] at h
  | .str _, _ => by simp [serializeProperty]
  | .circular, h => by simp [Value.isJson] at h
  | .arr items, h => by
    have hi := serializeItems_of_isJson items (by simpa [Value.isJson] using h)
    simp [serializeProperty, hi]
  | .obj fields, h => by
    have hf := serializeFields_of_isJson fields (by simpa [Value.isJson] using h)
    simp [serializeProperty, hf]
theorem serializeItems_of_isJson :
    ∀ xs : List Value, isJsonItems xs = true → serializeItems xs = some xs
  | [], _ => by simp [serializeItems]
  | x :: xs, h => by
    simp only [isJsonItems, Bool.and_eq_true] at h
    simp [serializeItems, serializeProperty_of_isJson x h.1, serializeItems_of_isJson xs h.2]
theorem serializeFields_of_isJson :
    ∀ fs : List (String × Value), isJsonFields fs = true → serializeFields fs = some fs
  | [], _ => by simp [serializeFields]
  | (key, x) :: fs, h => by
    simp only [isJsonFields, Bool.and_eq_true] at h
    simp [serializeFields, serializeProperty_of_isJson x h.1, serializeFields_of_isJson fs h.2]
end

theorem transformRequest_of_isJson (data : Value) (hobj : data.isObject = true)
    (hjson : data.isJson = true) : transformRequest data = some (.json data) := by
  simp [transformRequest, hobj, serializeProperty_of_isJson data hjson]

theorem transmitted_post (url : String) (data : Value) (net : Network) (st : ClientState)
    (hobj : data.isObject = true) (hjson : data.isJson = true) :
    transmitted (post url data net st).2.sent
      = transmitted st.sent ++ [{ method := "POST", baseURL := st.api.defaults.baseURL,
                                  timeout := st.api.defaults.timeout, url := url,
                                  body := .json data }] := by
  simp [post, transmitted, List.filterMap_append, wireRequest,
    transformRequest_of_isJson data hobj hjson]

/-- C4, refuted as stated: with the phone a BigInt the call fails in
serialisation and nothing is transmitted, although the server would answer;
with the phone `undefined` one request is transmitted whose body is the empty
object, without the key `phone`; with the phone `NaN` the body binds `phone`
to `null`. -/
theorem getUserInfo_body_counterexample :
    transmitted (getUserInfo (.bigint 10) (pipeline respondOk) ClientState.init).2.sent = []
    ∧ (getUserInfo (.bigint 10) (pipeline respondOk) ClientState.init).1
        = .error .serialisation
    ∧ transmitted (getUserInfo .undefined (pipeline respondOk) ClientState.init).2.sent
        = [{ method := "POST", baseURL := "http://localhost:8000", timeout := 5000,
             url := "/borrower_loans", body := .json (.obj []) }]
    ∧ transmitted (getUserInfo (.num .nan) (pipeline respondOk) ClientState.init).2.sent
        = [{ method := "POST", baseURL := "http://localhost:8000", timeout := 5000,
             url := "/borrower_loans", body := .json (.obj [("phone", .null)]) }] :=
  ⟨rfl, rfl, rfl, rfl⟩

/-- C4, amended. For every phone value that is a JSON value, getUserInfo hands
one request to the library and exactly one request is transmitted for it: a
POST to `/borrower_loans` with the base address and timeout of the client,
whose body is the JSON object with the single key `phone` bound to the
argument unchanged. -/
theorem getUserInfo_wire_request (phone : Value) (hjson : phone.isJson = true)
    (net : Network) (st : ClientState) :
    (getUserInfo phone net st).2.sent.length = st.sent.length + 1
    ∧ transmitted (getUserInfo phone net st).2.sent
      = transmitted st.sent ++ [{ method := "POST", baseURL := st.api.defaults.baseURL,
                                  timeout := st.api.defaults.timeout,
                                  url := "/borrower_loans",
                                  body := .json (.obj [("phone", phone)]) }] := by
  refine ⟨by simp [getUserInfo, post], ?_⟩
  apply transmitted_post
  · rfl
  · simp [Value.isJson, isJsonFields, hjson]

/-- C4, amended, at the phone `13800000000` from the loaded module: the one
transmitted request has the body with `phone` bound to that string. -/
theorem getUserInfo_wire_request_witness :
    (Value.str "13800000000").isJson = true
    ∧ transmitted (getUserInfo (.str "13800000000") (pipeline respondOk) ClientState.init).2.sent
      = [{ method := "POST", baseURL := "http://localhost:8000", timeout := 5000,
           url := "/borrower_loans", body := .json (.obj [("phone", .str "13800000000")]) }] :=
  ⟨rfl, (getUserInfo_wire_request (.str "13800000000") rfl (pipeline respondOk)
    ClientState.init).2⟩

/-- C5, refuted as stated: an argument object with a field bound to `undefined`
is transmitted without that key, and one with a field bound to `NaN` with that
field bound to `null`; with a field bound to a BigInt, or with a cyclic
argument object, the call fails in serialisation and nothing is transmitted. -/
theorem searchBooks_borrowBook_body_counterexample :
    transmitted (searchBooks (.obj [("title", .undefined)]) (pipeline respondOk)
        ClientState.init).2.sent
      = [{ method := "POST", baseURL := "http://localhost:8000", timeout := 5000,
           url := "/search_books", body := .json (.obj []) }]
    ∧ transmitted (borrowBook (.obj [("count", .bigint 1)]) (pipeline respondOk)
        ClientState.init).2.sent = []
    ∧ (borrowBook (.obj [("count", .bigint 1)]) (pipeline respondOk) ClientState.init).1
        = .error .serialisation
    ∧ transmitted (searchBooks .circular (pipeline respondOk) ClientState.init).2.sent = []
    ∧ transmitted (searchBooks (.obj [("year", .num .nan)]) (pipeline respondOk)
        ClientState.init).2.sent
      = [{ method := "POST", baseURL := "http://localhost:8000", timeout := 5000,
           url := "/search_books", body := .json (.obj [("year", .null)]) }] :=
  ⟨rfl, rfl, rfl, rfl, rfl⟩

/-- C5, amended. For every argument object that is a JSON value, searchBooks
and borrowBook each hand one request to the library and exactly one request is
transmitted for it: a POST to `/search_books` and to `/borrow`, whose body is
the argument itself. -/
theorem searchBooks_borrowBook_wire_request (arg : Value) (hobj : arg.isObject = true)
    (hjson : arg.isJson = true) (net : Network) (st : ClientState) :
    ((searchBooks arg net st).2.sent.length = st.sent.length + 1
      ∧ transmitted (searchBooks arg net st).2.sent
        = transmitted st.sent ++ [{ method := "POST", baseURL := st.api.defaults.baseURL,
                                    timeout := st.api.defaults.timeout,
                                    url := "/search_books", body := .json arg }])
    ∧ ((borrowBook arg net st).2.sent.length = st.sent.length + 1
      ∧ transmitted (borrowBook arg net st).2.sent
        = transmitted st.sent ++ [{ method := "POST", baseURL := st.api.defaults.baseURL,
                                    timeout := st.api.defaults.timeout,
                                    url := "/borrow", body := .json arg }]) :=
  ⟨⟨by simp [searchBooks, post], transmitted_post _ arg net st hobj hjson⟩,
    ⟨by simp [borrowBook, post], transmitted_post _ arg net st hobj hjson⟩⟩

/-- C5, amended, at the argument object with `title` bound to `X` from the
loaded module: the one transmitted searchBooks request has that object as its
body. -/
theorem searchBooks_borrowBook_wire_request_witness :
    (Value.obj [("title", .str "X")]).isObject = true
    ∧ (Value.obj [("title", .str "X")]).isJson = true
    ∧ transmitted (searchBooks (.obj [("title", .str "X")]) (pipeline respondOk)
        ClientState.init).2.sent
      = [{ method := "POST", baseURL := "http://localhost:8000", timeout := 5000,
           url := "/search_books", body := .json (.obj [("title", .str "X")]) }] :=
  ⟨rfl, rfl, (searchBooks_borrowBook_wire_request (.obj [("title", .str "X")]) rfl rfl
    (pipeline respondOk) ClientState.init).1.2⟩

/-- C6. For each of the three operations the result is the outcome the
transport gives for the one request of the call, whatever that outcome is, a
response or a failure, and the call adds exactly one request to those issued:
nothing is recovered, replaced or retried. -/
theorem operations_surface_outcome (arg : Value) (net : Network) (st : ClientState) :
    ((getUserInfo arg net st).1
        = net st.sent.length { method := "POST", baseURL := st.api.defaults.baseURL,
                               timeout := st.api.defaults.timeout, url := "/borrower_loans",
                               data := .obj [("phone", arg)] }
      ∧ (getUserInfo arg net st).2.sent.length = st.sent.length + 1)
    ∧ ((searchBooks arg net st).1
        = net st.sent.length { method := "POST", baseURL := st.api.defaults.baseURL,
                               timeout := st.api.defaults.timeout, url := "/search_books",
                               data := arg }
      ∧ (searchBooks arg net st).2.sent.length = st.sent.length + 1)
    ∧ ((borrowBook arg net st).1
        = net st.sent.length { method := "POST", baseURL := st.api.defaults.baseURL,
                               timeout := st.api.defaults.timeout, url := "/borrow",
                               data := arg }
      ∧ (borrowBook arg net st).2.sent.length = st.sent.length + 1) := by
  refine ⟨⟨rfl, ?_⟩, ⟨rfl, ?_⟩, ⟨rfl, ?_⟩⟩ <;>
    simp [getUserInfo, searchBooks, borrowBook, post]

/-- C7. The client is configured with the base address `http://localhost:8000`
(an http URL on port 8000) and the timeout 5000; after any sequence of calls of
the three operations from the loaded module the client is still that one, one
request was issued per call, and every request issued is a POST with that base
address and that timeout. -/
theorem shared_client_configuration :
    api.defaults = { baseURL := "http://localhost:8000", timeout := 5000 }
    ∧ "http://".toList <+: api.defaults.baseURL.toList
    ∧ ":8000".toList <:+ api.defaults.baseURL.toList
    ∧ ∀ (net : Network) (calls : List Call),
        (runCalls net calls ClientState.init).api = api
        ∧ (runCalls net calls ClientState.init).sent.length = calls.length
        ∧ ∀ r ∈ (runCalls net calls ClientState.init).sent,
            r.method = "POST" ∧ r.baseURL = "http://localhost:8000" ∧ r.timeout = 5000 := by
  refine ⟨rfl, by decide, by decide, ?_⟩
  intro net calls
  obtain ⟨hapi, issued, hsent, hlen, hall⟩ := runCalls_invariant net calls ClientState.init
  refine ⟨hapi, ?_, ?_⟩
  · rw [hsent]
    simpa [ClientState.init] using hlen
  · intro r hr
    rw [hsent] at hr
    have hr2 : r ∈ issued := by simpa [ClientState.init] using hr
    exact hall r hr2

end BookLibrary
